import Mathlib

/-!
Verification of the qdrant-tutorial scripts against their specification.

The repository consists of tutorial scripts driving the Qdrant client SDK.
The vector-database semantics (collections, points, search, scroll,
credential enforcement) live in the external Qdrant service, which is not
part of the repository; those operations are modelled here from the spec
(sections 3, 4.3 and 7).  The driver logic that does appear in the scripts
(the recreate-collection sequence, the delete-if-exists `try/except: pass`
pattern, the permission probe, and the API-key management helpers) is
translated directly from the source files.
-/

namespace QdrantTutorial

/-- Payload: mapping from string keys to scalar values, modelled as an
association list of strings (spec section 3, as used in the scripts). -/
abbrev Payload := List (String × String)

/-- Modelled from the spec: a Point is an identifier, a vector
(fixed-length sequence of numbers, embedded as rationals), and a payload
(spec section 3).  The scripts use integer identifiers. -/
structure Point where
  id : Nat
  vector : List ℚ
  payload : Payload
  deriving DecidableEq, Repr

/-- Modelled from the spec: the enumerated distance metrics
(spec section 3).  The scripts only ever use the cosine metric. -/
inductive Metric where
  | cosine
  | dotProduct
  | euclidean
  deriving DecidableEq, Repr

/-- Modelled from the spec: a Collection has a vector dimensionality, a
distance metric and a set of stored points (spec section 3). -/
structure Collection where
  dim : Nat
  metric : Metric
  points : List Point
  deriving DecidableEq, Repr

/-- The state of the external service: named collections
(spec section 3: collection names are unique). -/
abbrev DB := List (String × Collection)

/-- Modelled from the spec: the three user-visible error kinds
(spec section 7). -/
inductive QdrantError where
  | authorizationError
  | notFoundError
  | validationError
  deriving DecidableEq, Repr

/-- Modelled from the spec: a credential is bound to a permission set:
allowed actions (read, write) and allowed collections, a subset or all
(spec section 3). -/
structure Credential where
  canRead : Bool
  canWrite : Bool
  allowedCollections : Option (List String)
  deriving DecidableEq, Repr

/-- The two permission-relevant action kinds (spec section 3). -/
inductive Action where
  | read
  | write
  deriving DecidableEq, Repr

/-- Modelled from the spec: whether a credential permits an action on an
optional target collection (spec sections 3 and 4.3). -/
def Credential.permits (c : Credential) (a : Action) (target : Option String) : Bool :=
  (match a with
   | .read => c.canRead
   | .write => c.canWrite) &&
  (match c.allowedCollections, target with
   | none, _ => true
   | some _, none => true
   | some allowed, some n => allowed.contains n)

/-- Look up a collection by name in the service state. -/
def dbFind (db : DB) (name : String) : Option Collection :=
  (db.find? (fun e => e.1 == name)).map (·.2)

/-- Replace the collection stored under a name. -/
def dbSet (db : DB) (name : String) (col : Collection) : DB :=
  db.map (fun e => if e.1 == name then (name, col) else e)

/-- Modelled from the spec: `get_collections` lists the existing
collection names; requires read permission (spec sections 4.3 and 8). -/
def get_collections (c : Credential) (db : DB) : Except QdrantError (List String) :=
  if c.permits .read none then .ok (db.map Prod.fst) else .error .authorizationError

/-- Modelled from the spec: `create_collection` makes a fresh, empty
collection with the given dimensionality and metric (spec section 3).
Authorization is checked before anything else (spec section 4.3 failure
policy); creating a name that already exists is a validation failure. -/
def create_collection (c : Credential) (name : String) (dim : Nat) (metric : Metric)
    (db : DB) : Except QdrantError DB :=
  if ¬ c.permits .write (some name) then .error .authorizationError
  else if (dbFind db name).isSome then .error .validationError
  else .ok ((name, ⟨dim, metric, []⟩) :: db)

/-- Modelled from the spec: `delete_collection` drops a collection
unconditionally; deletion is destructive (spec section 3). -/
def delete_collection (c : Credential) (name : String) (db : DB) : Except QdrantError DB :=
  if ¬ c.permits .write (some name) then .error .authorizationError
  else if (dbFind db name).isNone then .error .notFoundError
  else .ok (db.filter (fun e => !(e.1 == name)))

/-- Modelled from the spec: insert-or-replace by identifier — stored
points whose identifier occurs in the new batch are replaced, the rest
are kept, and the new points are appended (spec section 4.3). -/
def upsertList (old new : List Point) : List Point :=
  old.filter (fun q => !(new.any (fun p => p.id == q.id))) ++ new

/-- Modelled from the spec: `upsert` inserts-or-replaces points by
identifier; fails with an authorization error without write permission,
a not-found error when the collection is absent, and a validation error
on dimensionality mismatch (spec sections 4.3 and 7). -/
def upsert (c : Credential) (name : String) (pts : List Point) (db : DB) :
    Except QdrantError DB :=
  if ¬ c.permits .write (some name) then .error .authorizationError
  else match dbFind db name with
    | none => .error .notFoundError
    | some col =>
      if pts.all (fun p => p.vector.length == col.dim) then
        .ok (dbSet db name { col with points := upsertList col.points pts })
      else .error .validationError

/-- Modelled from the spec: `retrieve` returns the points matching the
given identifiers, omitting any not found, with no error for missing
identifiers (spec section 4.3). -/
def retrieve (c : Credential) (name : String) (ids : List Nat) (db : DB) :
    Except QdrantError (List Point) :=
  if ¬ c.permits .read (some name) then .error .authorizationError
  else match dbFind db name with
    | none => .error .notFoundError
    | some col => .ok (col.points.filter (fun p => ids.contains p.id))

/-- Modelled from the spec: `delete` removes points by explicit
identifier list (spec section 4.3). -/
def delete_points (c : Credential) (name : String) (ids : List Nat) (db : DB) :
    Except QdrantError DB :=
  if ¬ c.permits .write (some name) then .error .authorizationError
  else match dbFind db name with
    | none => .error .notFoundError
    | some col =>
      .ok (dbSet db name { col with points := col.points.filter (fun p => !(ids.contains p.id)) })

/-- Dot product of two vectors. -/
def dot (a b : List ℚ) : ℚ :=
  (List.zipWith (· * ·) a b).sum

/-- Squared Euclidean norm of a vector. -/
def normSq (a : List ℚ) : ℚ :=
  dot a a

/-- Modelled from the spec: the similarity score of a stored vector
against a query vector under a metric (spec sections 3 and 4.3).  For the
cosine metric the score used here is the sign-preserving square of the
cosine, a strictly monotone transform of the cosine itself (the true
cosine needs square roots, which are not rational); rankings produced by
this score coincide with cosine rankings.  For the Euclidean metric a
closer point scores higher, so the negated squared distance is used. -/
def score (m : Metric) (q v : List ℚ) : ℚ :=
  match m with
  | .dotProduct => dot q v
  | .euclidean => - normSq (List.zipWith (· - ·) q v)
  | .cosine =>
    let d := dot q v
    let n := normSq q * normSq v
    if n = 0 then 0
    else if 0 ≤ d then d ^ 2 / n else - (d ^ 2 / n)

/-- A search result record: identifier, score and payload
(spec section 4.3). -/
structure ScoredPoint where
  id : Nat
  score : ℚ
  payload : Payload
  deriving DecidableEq, Repr

/-- The descending-score ordering on search results: `a` ranks at least
as high as `b` when its score is at least `b`'s. -/
def scoreGE (a b : ScoredPoint) : Prop :=
  b.score ≤ a.score

instance : DecidableRel scoreGE :=
  fun a b => inferInstanceAs (Decidable (b.score ≤ a.score))

instance : IsTotal ScoredPoint scoreGE :=
  ⟨fun a b => le_total b.score a.score⟩

instance : IsTrans ScoredPoint scoreGE :=
  ⟨fun _ _ _ hab hbc => le_trans hbc hab⟩

/-- Modelled from the spec: rank all points of a collection by descending
similarity score against the query (spec section 4.3). -/
def rankPoints (m : Metric) (q : List ℚ) (pts : List Point) : List ScoredPoint :=
  (pts.map (fun p => ⟨p.id, score m q p.vector, p.payload⟩)).insertionSort scoreGE

/-- Modelled from the spec: `search` returns ranked results ordered by
descending similarity score; `limit` bounds the result count and `offset`
skips leading results (spec section 4.3). -/
def search (c : Credential) (name : String) (q : List ℚ) (limit offset : Nat)
    (db : DB) : Except QdrantError (List ScoredPoint) :=
  if ¬ c.permits .read (some name) then .error .authorizationError
  else match dbFind db name with
    | none => .error .notFoundError
    | some col =>
      if q.length == col.dim then
        .ok (((rankPoints col.metric q col.points).drop offset).take limit)
      else .error .validationError

/-- Modelled from the spec: one `scroll` step over a point list.  Passing
no cursor starts from the beginning; a returned cursor continues where
the batch ended; end-of-data yields an empty batch and a null cursor
(spec section 4.3). -/
def scrollStep (pts : List Point) (cursor : Option Nat) (limit : Nat) :
    List Point × Option Nat :=
  let start := cursor.getD 0
  let rest := pts.drop start
  if rest.isEmpty then ([], none)
  else (rest.take limit, some (start + min limit rest.length))

/-- Modelled from the spec: the `scroll` client operation (spec
section 4.3), with the same failure policy as the other read calls. -/
def scroll (c : Credential) (name : String) (cursor : Option Nat) (limit : Nat)
    (db : DB) : Except QdrantError (List Point × Option Nat) :=
  if ¬ c.permits .read (some name) then .error .authorizationError
  else match dbFind db name with
    | none => .error .notFoundError
    | some col => .ok (scrollStep col.points cursor limit)

/-- The batches-and-cursors trace obtained by starting from a cursor and
repeatedly scrolling with each returned cursor, stopping at a null
cursor.  `fuel` bounds the number of calls. -/
def scrollTraceAux (pts : List Point) (limit : Nat) (cursor : Option Nat) :
    Nat → List (List Point × Option Nat)
  | 0 => []
  | fuel + 1 =>
    let r := scrollStep pts cursor limit
    match r.2 with
    | none => [r]
    | some k => r :: scrollTraceAux pts limit (some k) fuel

/-- The recreate-collection sequence from `01_basic_operations.py`
lines 42-57 (also `02_semantic_search.py` lines 35-50 and
`03_advanced_features.py` lines 38-53): list the existing collections;
if the name is present, delete it; then create it fresh.  No step is
wrapped in a handler, so any failure propagates. -/
def ensureCollection (c : Credential) (name : String) (dim : Nat) (metric : Metric)
    (db : DB) : Except QdrantError DB :=
  (get_collections c db).bind (fun names =>
    (if name ∈ names then delete_collection c name db else .ok db).bind
      (fun db1 => create_collection c name dim metric db1))

/-- The delete-if-exists step from `test_api_keys.py` lines 34-38 (the
same `try/except: pass` pattern appears in `admin_vs_readonly.py`
lines 41-46 and `advanced_api_key_usage.py` lines 67-70): the delete call
is attempted and any failure is swallowed, leaving the state unchanged. -/
def deleteIfExists (c : Credential) (name : String) (db : DB) : DB :=
  match delete_collection c name db with
  | .ok db2 => db2
  | .error _ => db

/-- The write-operation test from `test_api_keys.py` lines 33-47:
delete-if-exists (failures suppressed) followed by creating the
collection with size 4 and cosine distance. -/
def setupTestCollection (c : Credential) (name : String) (db : DB) :
    Except QdrantError DB :=
  create_collection c name 4 .cosine (deleteIfExists c name db)

/-- A probed operation: runs under a credential against the service
state, yielding the new state or an error. -/
abbrev ProbeOp := Credential → DB → Except QdrantError DB

/-- The `list_collections` test operation from
`advanced_api_key_usage.py` lines 61-63. -/
def listCollectionsOp : ProbeOp := fun c db =>
  (get_collections c db).map (fun _ => db)

/-- The `create_test_collection` test operation from
`advanced_api_key_usage.py` lines 65-79: delete-if-exists with failures
swallowed, then create with size 4 and cosine distance. -/
def createTestCollectionOp : ProbeOp := fun c db =>
  create_collection c "test_collection" 4 .cosine (deleteIfExists c "test_collection" db)

/-- The `add_point_to_collection` test operation from
`advanced_api_key_usage.py` lines 81-93. -/
def addPointOp : ProbeOp := fun c db =>
  upsert c "test_collection"
    [⟨1, [1/10, 2/10, 3/10, 4/10], [("name", "test point")]⟩] db

/-- The `search_in_collection` test operation from
`advanced_api_key_usage.py` lines 95-102. -/
def searchOp : ProbeOp := fun c db =>
  (search c "test_collection" [1/10, 2/10, 3/10, 4/10] 1 0 db).map (fun _ => db)

/-- The `delete_point` test operation from `advanced_api_key_usage.py`
lines 104-112. -/
def deletePointOp : ProbeOp := fun c db =>
  delete_points c "test_collection" [1] db

/-- The `test_operation` driver from `advanced_api_key_usage.py`
lines 48-57: try one operation under every client in turn, recording for
each client either success or the failure; a failure leaves the state
unchanged and the loop continues with the next client. -/
def test_operation (clients : List (Credential × String)) (opName : String)
    (op : ProbeOp) (db : DB) :
    DB × List (String × String × Except QdrantError Unit) :=
  match clients with
  | [] => (db, [])
  | cn :: rest =>
    match op cn.1 db with
    | .ok db2 =>
      let r := test_operation rest opName op db2
      (r.1, (opName, cn.2, Except.ok ()) :: r.2)
    | .error e =>
      let r := test_operation rest opName op db
      (r.1, (opName, cn.2, Except.error e) :: r.2)

/-- The main probe from `advanced_api_key_usage.py` lines 124-129: run
each named test operation in sequence, each under every client,
accumulating all records. -/
def runProbe (clients : List (Credential × String)) (ops : List (String × ProbeOp))
    (db : DB) : DB × List (String × String × Except QdrantError Unit) :=
  match ops with
  | [] => (db, [])
  | op :: rest =>
    let r := test_operation clients op.1 op.2 db
    let r2 := runProbe clients rest r.1
    (r2.1, r.2 ++ r2.2)

/-- The fixed operation sequence probed by `advanced_api_key_usage.py`
lines 124-129: list collections, create collection, add point, search,
delete point. -/
def fixedProbeOps : List (String × ProbeOp) :=
  [("List Collections", listCollectionsOp),
   ("Create Collection", createTestCollectionOp),
   ("Add Point", addPointOp),
   ("Search", searchOp),
   ("Delete Point", deletePointOp)]

/-- An HTTP response from the API-key administration endpoints, reduced
to what `manage_api_keys.py` inspects: the status code and the parsed
JSON body (kept abstract as a string). -/
structure HttpResponse where
  status : Nat
  body : String
  deriving DecidableEq, Repr

/-- From `manage_api_keys.py` lines 46-53 (`create_api_key`): return the
parsed JSON body when the status code is 200, otherwise print the error
and return `None`; no exception is raised on a non-200 status. -/
def create_api_key (resp : HttpResponse) : Option String :=
  if resp.status == 200 then some resp.body else none

/-- From `manage_api_keys.py` lines 68-75 (`list_api_keys`): return the
parsed JSON body when the status code is 200, otherwise `None`. -/
def list_api_keys (resp : HttpResponse) : Option String :=
  if resp.status == 200 then some resp.body else none

/-- From `manage_api_keys.py` lines 91-98 (`delete_api_key`): return
`True` exactly when the status code is 200, otherwise `False`. -/
def delete_api_key (resp : HttpResponse) : Bool :=
  resp.status == 200

instance {ε α : Type} [DecidableEq ε] [DecidableEq α] : DecidableEq (Except ε α) :=
  fun a b =>
    match a, b with
    | .ok x, .ok y =>
      if h : x = y then .isTrue (by rw [h]) else .isFalse (by simp [h])
    | .ok _, .error _ => .isFalse (by simp)
    | .error _, .ok _ => .isFalse (by simp)
    | .error x, .error y =>
      if h : x = y then .isTrue (by rw [h]) else .isFalse (by simp [h])

/-- The admin credential from the scripts (full access, all
collections). -/
def adminCred : Credential := ⟨true, true, none⟩

/-- The read-only credential from the scripts (read access only, all
collections). -/
def readonlyCred : Credential := ⟨true, false, none⟩

/-- Point 1 of `01_basic_operations.py`: "red apple". -/
def point1 : Point :=
  ⟨1, [9/10, 1/10, 1/10, 2/10],
   [("name", "red apple"), ("category", "fruit"), ("color", "red")]⟩

/-- Point 2 of `01_basic_operations.py`: "green apple". -/
def point2 : Point :=
  ⟨2, [8/10, 1/10, 7/10, 2/10],
   [("name", "green apple"), ("category", "fruit"), ("color", "green")]⟩

/-- Point 3 of `01_basic_operations.py`: "red car". -/
def point3 : Point :=
  ⟨3, [1/10, 9/10, 1/10, 2/10],
   [("name", "red car"), ("category", "vehicle"), ("color", "red")]⟩

/-- Point 4 of `01_basic_operations.py`: "blue car". -/
def point4 : Point :=
  ⟨4, [1/10, 8/10, 1/10, 7/10],
   [("name", "blue car"), ("category", "vehicle"), ("color", "blue")]⟩

/-- The four demonstration points of `01_basic_operations.py`
lines 63-88. -/
def tutorialPoints : List Point :=
  [point1, point2, point3, point4]

/-- The service state after steps 2-3 of `01_basic_operations.py`:
the collection is created with dimension 4 and cosine metric, then the
four demonstration points are upserted. -/
def tutorialDB : DB :=
  match (ensureCollection adminCred "tutorial_collection" 4 .cosine []).bind
      (upsert adminCred "tutorial_collection" tutorialPoints) with
  | .ok db => db
  | .error _ => []

/-! ### Supporting lemmas -/

theorem permits_read_of_flags {c : Credential} (hr : c.canRead = true)
    (hall : c.allowedCollections = none) (t : Option String) :
    c.permits .read t = true := by
  simp [Credential.permits, hr, hall]

theorem permits_write_of_flags {c : Credential} (hw : c.canWrite = true)
    (hall : c.allowedCollections = none) (t : Option String) :
    c.permits .write t = true := by
  simp [Credential.permits, hw, hall]

theorem not_permits_write {c : Credential} (hw : c.canWrite = false)
    (t : Option String) : c.permits .write t = false := by
  simp [Credential.permits, hw]

theorem dbFind_isSome_iff (db : DB) (name : String) :
    (dbFind db name).isSome ↔ name ∈ db.map Prod.fst := by
  induction db with
  | nil => simp [dbFind]
  | cons e rest ih =>
    by_cases he : e.1 = name
    · have hb : ((fun e : String × Collection => e.1 == name) e) = true := by
        simpa using he
      simp [dbFind, @List.find?_cons_of_pos _ (fun e => e.1 == name) e rest hb, he]
    · have hb : ¬ (((fun e : String × Collection => e.1 == name) e) = true) := by
        simpa using he
      have hne : ¬ (name = e.1) := fun h => he h.symm
      rw [dbFind, @List.find?_cons_of_neg _ (fun e => e.1 == name) e rest hb]
      simp only [List.map_cons, List.mem_cons, hne, false_or]
      exact ih

theorem dbFind_filter_ne (db : DB) (name : String) :
    dbFind (db.filter (fun e => !(e.1 == name))) name = none := by
  rw [dbFind, Option.map_eq_none']
  rw [List.find?_eq_none]
  intro e he
  have h2 := (List.mem_filter.mp he).2
  simp only [Bool.not_eq_true'] at h2
  simp [h2]

theorem dbFind_cons_self (db : DB) (name : String) (col : Collection) :
    dbFind ((name, col) :: db) name = some col := by
  have hb : ((fun e : String × Collection => e.1 == name) (name, col)) = true := by simp
  rw [dbFind, @List.find?_cons_of_pos _ (fun e => e.1 == name) (name, col) db hb]
  rfl

theorem dbFind_dbSet_self {db : DB} {name : String} (col : Collection)
    (h : (dbFind db name).isSome) :
    dbFind (dbSet db name col) name = some col := by
  induction db with
  | nil => simp [dbFind] at h
  | cons e rest ih =>
    by_cases he : e.1 = name
    · have hb : (e.1 == name) = true := by simpa using he
      have hb2 : ((fun e : String × Collection => e.1 == name) (name, col)) = true := by simp
      rw [dbSet, List.map_cons, if_pos hb]
      rw [dbFind, @List.find?_cons_of_pos _ (fun e => e.1 == name) (name, col)
        (List.map (fun e => if (e.1 == name) = true then (name, col) else e) rest) hb2]
      rfl
    · have hb : ¬ (((fun e : String × Collection => e.1 == name) e) = true) := by
        simpa using he
      have hrest : (dbFind rest name).isSome := by
        rw [dbFind, @List.find?_cons_of_neg _ (fun e => e.1 == name) e rest hb] at h
        exact h
      rw [dbSet, List.map_cons, if_neg hb]
      rw [dbFind, @List.find?_cons_of_neg _ (fun e => e.1 == name) e
        (List.map (fun e => if (e.1 == name) = true then (name, col) else e) rest) hb]
      exact ih hrest

theorem contains_singleton_iff (a b : Nat) : ([a].contains b) = true ↔ b = a := by
  simp [List.contains_eq_any_beq]

theorem filter_by_id_eq_single {new : List Point} {p : Point} (hp : p ∈ new)
    (hnd : (new.map Point.id).Nodup) :
    new.filter (fun q => [p.id].contains q.id) = [p] := by
  induction new with
  | nil => cases hp
  | cons a rest ih =>
    rw [List.map_cons] at hnd
    have hnd' := List.nodup_cons.mp hnd
    rcases List.mem_cons.mp hp with rfl | hmem
    · rw [List.filter_cons_of_pos (by simp [contains_singleton_iff])]
      have : rest.filter (fun q => [p.id].contains q.id) = [] := by
        rw [List.filter_eq_nil_iff]
        intro q hq hc
        exact hnd'.1 (List.mem_map.mpr ⟨q, hq, (contains_singleton_iff _ _).mp hc⟩)
      rw [this]
    · have hne : ¬ (([p.id].contains a.id) = true) := by
        rw [contains_singleton_iff]
        intro h
        exact hnd'.1 (List.mem_map.mpr ⟨p, hmem, h.symm⟩)
      rw [@List.filter_cons_of_neg _ (fun q => [p.id].contains q.id) a rest hne]
      exact ih hmem hnd'.2

theorem upsertList_filter_old {new : List Point} {p : Point} (old : List Point)
    (hp : p ∈ new) :
    (old.filter (fun q => !(new.any (fun x => x.id == q.id)))).filter
      (fun q => [p.id].contains q.id) = [] := by
  rw [List.filter_eq_nil_iff]
  intro q hq hc
  have h2 := (List.mem_filter.mp hq).2
  have hid : q.id = p.id := (contains_singleton_iff _ _).mp hc
  have : new.any (fun x => x.id == q.id) = true :=
    List.any_eq_true.mpr ⟨p, hp, by simp [hid]⟩
  simp [this] at h2

/-- Claim C4: for every point `p` just upserted into an existing
collection, retrieving `[p.id]` immediately afterwards returns exactly
that point (its current vector and payload). -/
theorem upsert_then_retrieve (c : Credential) (name : String) (db : DB)
    (col : Collection) (new : List Point) (p : Point)
    (hw : c.permits .write (some name) = true)
    (hr : c.permits .read (some name) = true)
    (hcol : dbFind db name = some col)
    (hdim : new.all (fun q => q.vector.length == col.dim) = true)
    (hp : p ∈ new)
    (hnd : (new.map Point.id).Nodup) :
    (upsert c name new db).bind (fun db2 => retrieve c name [p.id] db2) = .ok [p] := by
  have hset := @dbFind_dbSet_self db name { col with points := upsertList col.points new }
    (by rw [hcol]; rfl)
  rw [upsert, if_neg (by simp [hw]), hcol]
  simp only [hdim, if_true, Except.bind]
  rw [retrieve, if_neg (by simp [hr]), hset]
  simp only [upsertList, List.filter_append, upsertList_filter_old col.points hp,
    filter_by_id_eq_single hp hnd, List.nil_append]

/-- Witness for C4: upserting the four tutorial points into an existing
empty collection and then retrieving point 1's identifier returns
exactly point 1. -/
theorem upsert_then_retrieve_witness :
    (upsert adminCred "tutorial_collection" tutorialPoints
        [("tutorial_collection", ⟨4, .cosine, []⟩)]).bind
      (fun db2 => retrieve adminCred "tutorial_collection" [point1.id] db2) = .ok [point1] :=
  upsert_then_retrieve adminCred "tutorial_collection"
    [("tutorial_collection", ⟨4, .cosine, []⟩)] ⟨4, .cosine, []⟩ tutorialPoints point1
    (by rfl) (by rfl) (by rfl) (by rfl) (List.mem_cons_self _ _) (by decide)

/-- Claim C6: deleting an identifier and then retrieving it returns an
empty result; in general `retrieve` returns exactly the stored points
whose identifiers were requested, omitting missing identifiers without
raising any error, and every returned point was stored and was asked
for. -/
theorem delete_then_retrieve (c : Credential) (name : String) (db : DB)
    (col : Collection) (i : Nat) (ids : List Nat) (rs : List Point) (p : Point)
    (hw : c.permits .write (some name) = true)
    (hr : c.permits .read (some name) = true)
    (hcol : dbFind db name = some col)
    (hrs : retrieve c name ids db = .ok rs)
    (hpmem : p ∈ rs) :
    (delete_points c name [i] db).bind (fun db2 => retrieve c name [i] db2) = .ok [] ∧
    rs = col.points.filter (fun q => ids.contains q.id) ∧
    (p.id ∈ ids ∧ p ∈ col.points) := by
  have hrs2 : rs = col.points.filter (fun q => ids.contains q.id) := by
    rw [retrieve, if_neg (by simp [hr]), hcol] at hrs
    exact (Except.ok.inj hrs).symm
  refine ⟨?_, hrs2, ?_⟩
  · have hset := @dbFind_dbSet_self db name
      { col with points := col.points.filter (fun q => !([i].contains q.id)) }
      (by rw [hcol]; rfl)
    rw [delete_points, if_neg (by simp [hw]), hcol]
    simp only [Except.bind]
    rw [retrieve, if_neg (by simp [hr]), hset]
    have hnil : (col.points.filter (fun q => !([i].contains q.id))).filter
        (fun q => [i].contains q.id) = [] := by
      rw [List.filter_eq_nil_iff]
      intro q hq hc
      have h2 := (List.mem_filter.mp hq).2
      rw [hc] at h2
      simp at h2
    simp [hnil]
  · rw [hrs2] at hpmem
    have h2 := List.mem_filter.mp hpmem
    refine ⟨?_, h2.1⟩
    have := h2.2
    simpa [List.contains_eq_any_beq, List.any_eq_true] using this

/-- Witness for C6: in the tutorial collection, deleting identifier 1
and retrieving it yields an empty result, and retrieving identifiers
1 and 3 yields exactly the stored points 1 and 3. -/
theorem delete_then_retrieve_witness :
    ((delete_points adminCred "tutorial_collection" [1] tutorialDB).bind
        (fun db2 => retrieve adminCred "tutorial_collection" [1] db2) = .ok [] ∧
      [point1, point3] = tutorialPoints.filter (fun q => [1, 3].contains q.id) ∧
      (point1.id ∈ [1, 3] ∧ point1 ∈ tutorialPoints)) :=
  delete_then_retrieve adminCred "tutorial_collection" tutorialDB
    ⟨4, .cosine, tutorialPoints⟩ 1 [1, 3] [point1, point3] point1
    (by rfl) (by rfl) (by rfl) (by rfl) (List.mem_cons_self _ _)

/-- Claim C2: for every name, dimension and metric, under a credential
with read and write access to all collections, the recreate sequence
(list; delete when present; create) succeeds and leaves a collection
with exactly the given dimension and metric and no stored points — any
previously stored points are lost. -/
theorem ensureCollection_spec (c : Credential) (name : String) (d : Nat)
    (m : Metric) (db : DB)
    (hr : c.canRead = true) (hw : c.canWrite = true)
    (hall : c.allowedCollections = none) :
    (ensureCollection c name d m db).map (fun db2 => dbFind db2 name) =
      .ok (some ⟨d, m, []⟩) := by
  have hpr := permits_read_of_flags hr hall none
  have hpw := permits_write_of_flags hw hall (some name)
  rw [ensureCollection, get_collections, if_pos hpr]
  simp only [Except.bind]
  by_cases hmem : name ∈ db.map Prod.fst
  · have hsome : (dbFind db name).isSome := (dbFind_isSome_iff db name).mpr hmem
    have hnotnone : ¬ ((dbFind db name).isNone = true) := by
      rcases Option.isSome_iff_exists.mp hsome with ⟨x, hx⟩
      simp [hx]
    rw [if_pos hmem, delete_collection, if_neg (by simp [hpw]), if_neg hnotnone]
    simp only [Except.bind]
    rw [create_collection, if_neg (by simp [hpw]),
      if_neg (by simp [dbFind_filter_ne])]
    simp [Except.map, dbFind_cons_self]
  · have hnone : dbFind db name = none := by
      cases hfind : dbFind db name with
      | none => rfl
      | some v =>
        exact absurd ((dbFind_isSome_iff db name).mp (by simp [hfind])) hmem
    rw [if_neg hmem]
    simp only [Except.bind]
    rw [create_collection, if_neg (by simp [hpw]), if_neg (by simp [hnone])]
    simp [Except.map, dbFind_cons_self]

/-- Witness for C2: recreating the already-present "articles" collection
with dimension 384 and cosine metric leaves it empty with the new
parameters. -/
theorem ensureCollection_spec_witness :
    (ensureCollection adminCred "articles" 384 .cosine
        [("articles", ⟨4, .cosine, tutorialPoints⟩)]).map
      (fun db2 => dbFind db2 "articles") = .ok (some ⟨384, .cosine, []⟩) :=
  ensureCollection_spec adminCred "articles" 384 .cosine
    [("articles", ⟨4, .cosine, tutorialPoints⟩)] (by rfl) (by rfl) (by rfl)

theorem permits_read_none (c : Credential) : c.permits .read none = c.canRead := by
  cases h : c.allowedCollections <;> simp [Credential.permits, h]

/-- Counterexample for C3: with the admin credential and an empty
service state, the delete-if-exists step of the API-key test setup fails
with a not-found error, yet the setup succeeds — the underlying failure
was caught and suppressed rather than propagated. -/
theorem setup_swallows_delete_failure :
    delete_collection adminCred "test_admin_key" [] = .error .notFoundError ∧
    setupTestCollection adminCred "test_admin_key" [] =
      .ok [("test_admin_key", ⟨4, .cosine, []⟩)] :=
  ⟨rfl, rfl⟩

/-- Claim C3 as amended: when the underlying delete call fails during
idempotent collection setup, the delete-if-exists step of the API-key
test scripts catches and suppresses the failure and continues with
creation unchanged, while the recreate sequence of the tutorial scripts
propagates the same failure to the caller untouched. -/
theorem setup_failure_policy (c : Credential) (name : String) (d : Nat)
    (m : Metric) (db : DB) (e : QdrantError)
    (hdel : delete_collection c name db = .error e)
    (hmem : name ∈ db.map Prod.fst)
    (hread : c.canRead = true) :
    deleteIfExists c name db = db ∧
    setupTestCollection c name db = create_collection c name 4 .cosine db ∧
    ensureCollection c name d m db = .error e := by
  have h1 : deleteIfExists c name db = db := by rw [deleteIfExists, hdel]
  refine ⟨h1, ?_, ?_⟩
  · rw [setupTestCollection, h1]
  · rw [ensureCollection, get_collections,
      if_pos (show c.permits .read none = true by rw [permits_read_none, hread])]
    simp only [Except.bind]
    rw [if_pos hmem, hdel]

/-- Witness for the amended C3: under the read-only credential the
delete of the existing test collection fails with an authorization
error; the delete-if-exists step suppresses it and the setup continues,
while the recreate sequence propagates it. -/
theorem setup_failure_policy_witness :
    deleteIfExists readonlyCred "api_key_test_collection"
        [("api_key_test_collection", ⟨4, .cosine, []⟩)] =
      [("api_key_test_collection", ⟨4, .cosine, []⟩)] ∧
    setupTestCollection readonlyCred "api_key_test_collection"
        [("api_key_test_collection", ⟨4, .cosine, []⟩)] =
      create_collection readonlyCred "api_key_test_collection" 4 .cosine
        [("api_key_test_collection", ⟨4, .cosine, []⟩)] ∧
    ensureCollection readonlyCred "api_key_test_collection" 4 .cosine
        [("api_key_test_collection", ⟨4, .cosine, []⟩)] =
      .error .authorizationError :=
  setup_failure_policy readonlyCred "api_key_test_collection" 4 .cosine
    [("api_key_test_collection", ⟨4, .cosine, []⟩)] .authorizationError
    (by rfl) (by decide) (by rfl)

/-- Claim C10: the API-key administration helpers return the parsed
JSON body exactly when the response status is 200 and `None` otherwise,
and `delete_api_key` returns `True` exactly when the status is 200;
none of them fails on a non-200 status (they are total functions into
`Option` and `Bool`). -/
theorem manage_api_keys_status (r : HttpResponse) :
    (create_api_key r = some r.body ↔ r.status = 200) ∧
    (create_api_key r = none ↔ r.status ≠ 200) ∧
    (list_api_keys r = some r.body ↔ r.status = 200) ∧
    (list_api_keys r = none ↔ r.status ≠ 200) ∧
    (delete_api_key r = true ↔ r.status = 200) := by
  by_cases h : r.status = 200 <;>
    simp [create_api_key, list_api_keys, delete_api_key, h]

/-- Claim C1: under a credential with read but not write permission (for
all collections), every upsert, point-delete and create-collection call
fails with an authorization error, while list-collections, search and
retrieve on an existing collection succeed. -/
theorem readonly_key_permissions (c : Credential) (name name2 : String)
    (d : Nat) (m : Metric) (db : DB) (col : Collection) (pts : List Point)
    (ids : List Nat) (q : List ℚ) (lim off : Nat)
    (hr : c.canRead = true) (hw : c.canWrite = false)
    (hall : c.allowedCollections = none)
    (hcol : dbFind db name = some col)
    (hq : (q.length == col.dim) = true) :
    upsert c name pts db = .error .authorizationError ∧
    delete_points c name ids db = .error .authorizationError ∧
    create_collection c name2 d m db = .error .authorizationError ∧
    get_collections c db = .ok (db.map Prod.fst) ∧
    search c name q lim off db =
      .ok (((rankPoints col.metric q col.points).drop off).take lim) ∧
    retrieve c name ids db = .ok (col.points.filter (fun p => ids.contains p.id)) := by
  have hnw := not_permits_write hw (some name)
  have hnw2 := not_permits_write hw (some name2)
  have hpr := permits_read_of_flags hr hall (some name)
  have hprn := permits_read_of_flags hr hall none
  refine ⟨?_, ?_, ?_, ?_, ?_, ?_⟩
  · rw [upsert, if_pos (by simp [hnw])]
  · rw [delete_points, if_pos (by simp [hnw])]
  · rw [create_collection, if_pos (by simp [hnw2])]
  · rw [get_collections, if_pos hprn]
  · rw [search, if_neg (by simp [hpr]), hcol]
    simp [hq]
  · rw [retrieve, if_neg (by simp [hpr]), hcol]

/-- Witness for C1: the read-only credential on a one-collection state:
all three write calls fail with an authorization error and all three
read calls succeed. -/
theorem readonly_key_permissions_witness :
    upsert readonlyCred "api_key_test_collection" tutorialPoints
        [("api_key_test_collection", ⟨4, .cosine, []⟩)] = .error .authorizationError ∧
    delete_points readonlyCred "api_key_test_collection" [1]
        [("api_key_test_collection", ⟨4, .cosine, []⟩)] = .error .authorizationError ∧
    create_collection readonlyCred "api_key_test_collection_readonly" 4 .cosine
        [("api_key_test_collection", ⟨4, .cosine, []⟩)] = .error .authorizationError ∧
    get_collections readonlyCred [("api_key_test_collection", ⟨4, .cosine, []⟩)] =
      .ok ([("api_key_test_collection", (⟨4, .cosine, []⟩ : Collection))].map Prod.fst) ∧
    search readonlyCred "api_key_test_collection" [1/10, 2/10, 3/10, 4/10] 2 0
        [("api_key_test_collection", ⟨4, .cosine, []⟩)] =
      .ok (((rankPoints .cosine [1/10, 2/10, 3/10, 4/10] []).drop 0).take 2) ∧
    retrieve readonlyCred "api_key_test_collection" [1]
        [("api_key_test_collection", ⟨4, .cosine, []⟩)] =
      .ok (([] : List Point).filter (fun p => [1].contains p.id)) :=
  readonly_key_permissions readonlyCred "api_key_test_collection"
    "api_key_test_collection_readonly" 4 .cosine
    [("api_key_test_collection", ⟨4, .cosine, []⟩)] ⟨4, .cosine, []⟩
    tutorialPoints [1] [1/10, 2/10, 3/10, 4/10] 2 0
    (by rfl) (by rfl) (by rfl) (by rfl) (by rfl)

/-- Claim C5: every successful search returns a list ordered by
non-increasing similarity score whose length is at most the limit, and
searching with an offset returns exactly the results of the same query
with the first `off` entries skipped. -/
theorem search_ranked (c : Credential) (name : String) (q : List ℚ)
    (lim off : Nat) (db : DB) (rs : List ScoredPoint)
    (hs : search c name q lim off db = .ok rs) :
    rs.Pairwise scoreGE ∧ rs.length ≤ lim ∧
    (search c name q (off + lim) 0 db).map (fun l => l.drop off) = .ok rs := by
  rw [search] at hs
  by_cases hp : c.permits .read (some name) = true
  case neg =>
    rw [if_pos (by simpa using hp)] at hs
    cases hs
  rw [if_neg (by simp [hp])] at hs
  cases hfind : dbFind db name with
  | none =>
    rw [hfind] at hs
    simp at hs
  | some col =>
    rw [hfind] at hs
    by_cases hdim : (q.length == col.dim) = true
    case neg =>
      simp only [hdim, if_false] at hs
      simp at hs
    simp only [hdim, if_true] at hs
    have hrs := (Except.ok.inj hs).symm
    subst hrs
    refine ⟨?_, ?_, ?_⟩
    · exact List.Pairwise.sublist
        ((List.take_sublist _ _).trans (List.drop_sublist _ _))
        (List.sorted_insertionSort scoreGE _)
    · exact List.length_take_le _ _
    · rw [search, if_neg (by simp [hp]), hfind]
      simp only [hdim, if_true, Except.map]
      rw [List.drop_zero, List.drop_take, Nat.add_sub_cancel_left]

/-- Witness for C5: a page-2 search (limit 2, offset 1) on the tutorial
collection is sorted, has at most 2 results, and equals the
offset-0 search with the first entry skipped. -/
theorem search_ranked_witness :
    (((rankPoints Metric.cosine [9/10, 2/10, 1/10, 3/10] tutorialPoints).drop 1).take 2).Pairwise
        scoreGE ∧
    (((rankPoints Metric.cosine [9/10, 2/10, 1/10, 3/10] tutorialPoints).drop 1).take 2).length ≤ 2 ∧
    (search adminCred "tutorial_collection" [9/10, 2/10, 1/10, 3/10] (1 + 2) 0
        tutorialDB).map (fun l => l.drop 1) =
      .ok (((rankPoints Metric.cosine [9/10, 2/10, 1/10, 3/10] tutorialPoints).drop 1).take 2) :=
  search_ranked adminCred "tutorial_collection" [9/10, 2/10, 1/10, 3/10] 2 1
    tutorialDB
    (((rankPoints Metric.cosine [9/10, 2/10, 1/10, 3/10] tutorialPoints).drop 1).take 2)
    (by rfl)

theorem scrollTraceAux_spec (fuel : Nat) :
    ∀ (s : Nat) (pts : List Point) (limit : Nat), 1 ≤ limit →
      pts.length - s < fuel →
      ((scrollTraceAux pts limit (some s) fuel).map Prod.fst).flatten = pts.drop s ∧
      (scrollTraceAux pts limit (some s) fuel).getLast? = some ([], none) := by
  induction fuel with
  | zero =>
    intro s pts limit _ hf
    omega
  | succ f ih =>
    intro s pts limit hl hf
    rw [scrollTraceAux, scrollStep]
    simp only [Option.getD_some]
    by_cases hrest : (pts.drop s).isEmpty = true
    · rw [if_pos hrest]
      have : pts.drop s = [] := List.isEmpty_iff.mp hrest
      simp [this]
    · rw [if_neg hrest]
      have hlen : 0 < (pts.drop s).length := by
        cases hd : pts.drop s with
        | nil => rw [hd] at hrest; simp at hrest
        | cons a l => simp [hd]
      have hk : 1 ≤ min limit (pts.drop s).length := le_min hl hlen
      have hdroplen : (pts.drop s).length = pts.length - s := List.length_drop _ _
      have hrec : pts.length - (s + min limit (pts.drop s).length) < f := by omega
      obtain ⟨ihj, ihl⟩ := ih (s + min limit (pts.drop s).length) pts limit hl hrec
      constructor
      · simp only [List.map_cons, List.flatten_cons, ihj]
        have h1 : pts.drop (s + min limit (pts.drop s).length) =
            (pts.drop s).drop (min limit (pts.drop s).length) := by
          rw [List.drop_drop]
        rw [h1]
        have h2 : (pts.drop s).drop (min limit (pts.drop s).length) =
            (pts.drop s).drop limit := by
          rcases le_total limit (pts.drop s).length with h | h
          · rw [min_eq_left h]
          · rw [min_eq_right h, List.drop_eq_nil_of_le le_rfl,
              List.drop_eq_nil_of_le h]
        rw [h2, List.take_append_drop]
      · rw [List.getLast?_cons, ihl]
        rfl

/-- Claim C7: on an existing collection, one scroll call agrees with the
modelled scroll step for every cursor, and the trace obtained by
starting with no cursor and repeatedly passing each returned cursor ends
with an empty batch and a null cursor, with the batches concatenating to
exactly the collection's point set and no point in two batches. -/
theorem scroll_partitions (c : Credential) (name : String) (db : DB)
    (col : Collection) (limit fuel : Nat) (cur : Option Nat)
    (hperm : c.permits .read (some name) = true)
    (hcol : dbFind db name = some col)
    (hlim : 1 ≤ limit) (hfuel : col.points.length < fuel)
    (hnd : (col.points.map Point.id).Nodup) :
    scroll c name cur limit db = .ok (scrollStep col.points cur limit) ∧
    ((scrollTraceAux col.points limit none fuel).map Prod.fst).flatten = col.points ∧
    (scrollTraceAux col.points limit none fuel).getLast? = some ([], none) ∧
    ((scrollTraceAux col.points limit none fuel).map Prod.fst).Pairwise List.Disjoint := by
  have hnone : scrollTraceAux col.points limit none fuel =
      scrollTraceAux col.points limit (some 0) fuel := by
    cases fuel with
    | zero => rfl
    | succ f => rfl
  have hspec := scrollTraceAux_spec fuel 0 col.points limit hlim (by omega)
  have hflatten : ((scrollTraceAux col.points limit none fuel).map Prod.fst).flatten =
      col.points := by
    rw [hnone, hspec.1, List.drop_zero]
  refine ⟨?_, hflatten, ?_, ?_⟩
  · rw [scroll, if_neg (by simp [hperm]), hcol]
  · rw [hnone]
    exact hspec.2
  · have hpnd : col.points.Nodup := List.Nodup.of_map Point.id hnd
    have : (((scrollTraceAux col.points limit none fuel).map Prod.fst).flatten).Nodup := by
      rw [hflatten]
      exact hpnd
    exact (List.nodup_flatten.mp this).2

/-- Witness for C7: scrolling the four tutorial points with limit 2 and
fuel 5 yields batches flattening to the point list, ends with an empty
batch and null cursor, and a single scroll call matches the step
function. -/
theorem scroll_partitions_witness :
    scroll adminCred "articles" none 2
        [("articles", ⟨4, .cosine, tutorialPoints⟩)] =
      .ok (scrollStep tutorialPoints none 2) ∧
    ((scrollTraceAux tutorialPoints 2 none 5).map Prod.fst).flatten = tutorialPoints ∧
    (scrollTraceAux tutorialPoints 2 none 5).getLast? = some ([], none) ∧
    ((scrollTraceAux tutorialPoints 2 none 5).map Prod.fst).Pairwise List.Disjoint :=
  scroll_partitions adminCred "articles"
    [("articles", ⟨4, .cosine, tutorialPoints⟩)] ⟨4, .cosine, tutorialPoints⟩
    2 5 none (by rfl) (by rfl) (by decide) (by decide) (by decide)

theorem test_operation_labels (clients : List (Credential × String))
    (opName : String) (op : ProbeOp) (db : DB) :
    ((test_operation clients opName op db).2).map (fun r => (r.1, r.2.1)) =
      clients.map (fun cn => (opName, cn.2)) := by
  induction clients generalizing db with
  | nil => rfl
  | cons cn rest ih =>
    rw [test_operation]
    cases h : op cn.1 db with
    | ok db2 => simp [ih]
    | error e => simp [ih]

theorem runProbe_labels (clients : List (Credential × String))
    (ops : List (String × ProbeOp)) (db : DB) :
    ((runProbe clients ops db).2).map (fun r => (r.1, r.2.1)) =
      (ops.map Prod.fst).flatMap (fun n => clients.map (fun cn => (n, cn.2))) := by
  induction ops generalizing db with
  | nil => rfl
  | cons op rest ih =>
    rw [runProbe]
    simp only [List.map_cons, List.flatMap_cons, List.map_append, ih,
      test_operation_labels]

/-- Claim C8: the permission probe runs the fixed five-operation
sequence (list collections, create collection, add point, search,
delete point), each operation under every credential, producing one
success-or-error record per (operation, credential) pair in order; this
holds for every credential set and every service state, so no failure of
a probed operation ever aborts the probe. -/
theorem probe_covers_all (clients : List (Credential × String)) (db : DB) :
    ((runProbe clients fixedProbeOps db).2).map (fun r => (r.1, r.2.1)) =
      (fixedProbeOps.map Prod.fst).flatMap
        (fun n => clients.map (fun cn => (n, cn.2))) ∧
    ((runProbe clients fixedProbeOps db).2).length =
      fixedProbeOps.length * clients.length := by
  have h := runProbe_labels clients fixedProbeOps db
  refine ⟨h, ?_⟩
  have hlen := congrArg List.length h
  simp only [List.length_map] at hlen
  rw [hlen]
  simp only [fixedProbeOps, List.length_flatMap, List.map_cons, List.map_nil,
    List.length_map, List.sum_cons, List.sum_nil, List.length_cons, List.length_nil,
    Function.comp]
  omega

/-- Claim C9: in the tutorial scenario — a dimension-4 cosine collection
holding the four demonstration points — searching with the query vector
[0.9, 0.2, 0.1, 0.3] and limit 2 returns point 1 ranked first
(followed by point 2). -/
theorem basic_search_example :
    (search adminCred "tutorial_collection" [9/10, 2/10, 1/10, 3/10] 2 0
        tutorialDB).map (fun l => l.map ScoredPoint.id) = .ok [1, 2] := by
  have h : tutorialDB = [("tutorial_collection", ⟨4, .cosine, tutorialPoints⟩)] := rfl
  rw [h]
  norm_num [search, Credential.permits, adminCred, dbFind, rankPoints,
    tutorialPoints, point1, point2, point3, point4, score, dot, normSq, scoreGE,
    List.insertionSort, List.orderedInsert, Except.map]

end QdrantTutorial
